import Mathlib

/-!
# Verification of the GameLab ship-demo physics core

Shallow embedding of the physics and collision subsystem of the
`shader-shenanigans` repository (`src/GameLab/source`): ship kinematics
(`GLShip.cpp`), the collision controller (`GLCollisionController.cpp`) and
the photon queue (`GLPhotonQueue.h`).

Numeric conventions: the C++ code computes with 32-bit floats; here scalar
values are modelled as exact real numbers (`ℝ`), so algebraic identities of
the source are exact and IEEE rounding is not modelled.  A second, coarser
model (`F`, at the end of the definitions) tracks IEEE non-finite results
(NaN/infinity) explicitly; it is used to analyse the degenerate
zero-distance collision path, where the real-valued model would silently
identify `0/0` with `0`.

`GLPhotonQueue.cpp` and `GLShip.h` are not part of the source tree; where a
definition depends on them it is modelled from the specification and its
doc comment says so.  The constants `RELOAD_RATE` (from the missing
`GLShip.h`) and `MAX_AGE` (from the missing `GLPhotonQueue.cpp`) are taken
as parameters.

Rendering-only state (scene-graph nodes, filmstrip frames, tints, shadows)
is omitted throughout: it is never read by the physics code.
-/

namespace GameLab

open scoped Classical

/-- 2D vector, modelling `cugl::Vec2` (an external dependency of the repo):
components, addition, subtraction, scalar multiple, dot product, length and
normalization are the operations the physics code uses. -/
structure Vec2 where
  x : ℝ
  y : ℝ

/-- Componentwise vector addition (`cugl::Vec2::operator+`). -/
def Vec2.add (v w : Vec2) : Vec2 := ⟨v.x + w.x, v.y + w.y⟩

/-- Componentwise vector subtraction (`cugl::Vec2::operator-`). -/
def Vec2.sub (v w : Vec2) : Vec2 := ⟨v.x - w.x, v.y - w.y⟩

/-- Scalar multiple `v * c` (`cugl::Vec2::operator*(float)`). -/
def Vec2.smul (v : Vec2) (c : ℝ) : Vec2 := ⟨v.x * c, v.y * c⟩

/-- Dot product (`cugl::Vec2::dot`). -/
def Vec2.dot (v w : Vec2) : ℝ := v.x * w.x + v.y * w.y

/-- Euclidean length (`cugl::Vec2::length`). -/
noncomputable def Vec2.length (v : Vec2) : ℝ := Real.sqrt (v.dot v)

/-- Normalization (`cugl::Vec2::normalize`): scale by the reciprocal of the
length.  `cugl` guards the zero vector (a vector of length zero is left
unchanged); since `1 / 0 = 0` in `ℝ`, scaling by `1 / length` returns the
zero vector unchanged as well, so the guard needs no separate branch. -/
noncomputable def Vec2.normalize (v : Vec2) : Vec2 := v.smul (1 / v.length)

/-- `COLLISION_COEFF` from `GLCollisionController.cpp`: restitution ε. -/
noncomputable def COLLISION_COEFF : ℝ := 0.1

/-- `PHOTON_MASS` from `GLCollisionController.cpp`. -/
noncomputable def PHOTON_MASS : ℝ := 5.0

/-- `THRUST_FACTOR` from `GLShip.cpp`. -/
noncomputable def THRUST_FACTOR : ℝ := 0.4

/-- `BANK_FACTOR` from `GLShip.cpp`. -/
noncomputable def BANK_FACTOR : ℝ := 0.1

/-- `MAXIMUM_BANK` from `GLShip.cpp`. -/
noncomputable def MAXIMUM_BANK : ℝ := 5.0

/-- `FORWARD_DAMPING` from `GLShip.cpp`. -/
noncomputable def FORWARD_DAMPING : ℝ := 0.9

/-- `ANGULAR_DAMPING` from `GLShip.cpp`. -/
noncomputable def ANGULAR_DAMPING : ℝ := 0.875

/-- Physical state of a ship (`Ship` in `GLShip.cpp`): position `_pos`,
velocity `_vel`, facing angle `_ang` in degrees, angular rate `_dang`,
radius `_radius`, mass `_mass`, ship identity `_sid`, refire counter
`_refire`.  Scene-graph and texture fields are rendering-only and omitted. -/
structure Ship where
  pos : Vec2
  vel : Vec2
  ang : ℝ
  dang : ℝ
  radius : ℝ
  mass : ℝ
  sid : ℤ
  refire : ℤ

/-- `Ship::processTurn` from `GLShip.cpp`, restricted to its physical
effect on `_dang` (the filmstrip-frame bookkeeping is rendering-only and
omitted): if `turn ≠ 0`, `_dang -= turn / BANK_FACTOR` then clamp to
`[-MAXIMUM_BANK, MAXIMUM_BANK]`; otherwise damp `_dang` by
`ANGULAR_DAMPING` (when it is nonzero). -/
noncomputable def processTurn (s : Ship) (turn : ℝ) : Ship :=
  if turn ≠ 0 then
    let dang1 := s.dang - turn / BANK_FACTOR
    let dang2 :=
      if dang1 < -MAXIMUM_BANK then -MAXIMUM_BANK
      else if dang1 > MAXIMUM_BANK then MAXIMUM_BANK
      else dang1
    { s with dang := dang2 }
  else
    { s with dang := if s.dang ≠ 0 then s.dang * ANGULAR_DAMPING else s.dang }

/-- `Ship::move` from `GLShip.cpp`.  `RELOAD_RATE` is declared in the
missing `GLShip.h`, so its value is a parameter.  Order as in the source:
`processTurn(turn)`; thrust (reads `_ang` before the angular update);
`setAngle(_ang + _dang)`; renormalize the angle; `setPosition(_pos+_vel)`;
increment `_refire` while `_refire <= RELOAD_RATE`. -/
noncomputable def Ship.move (RELOAD_RATE : ℤ) (s0 : Ship) (forward turn : ℝ) : Ship :=
  let s1 : Ship := processTurn s0 turn
  let s2 : Ship :=
    if forward ≠ 0 then
      let rads := Real.pi * s1.ang / 180 + Real.pi / 2
      let dir : Vec2 := ⟨Real.cos rads, Real.sin rads⟩
      { s1 with vel := s1.vel.add ((dir.smul forward).smul THRUST_FACTOR) }
    else
      { s1 with vel := s1.vel.smul FORWARD_DAMPING }
  let s3 : Ship := { s2 with ang := s2.ang + s2.dang }
  let s4 : Ship := if s3.ang > 360 then { s3 with ang := s3.ang - 360 } else s3
  let s5 : Ship := if s4.ang < 0 then { s4 with ang := s4.ang + 360 } else s4
  let s6 : Ship := { s5 with pos := s5.pos.add s5.vel }
  if s6.refire ≤ RELOAD_RATE then { s6 with refire := s6.refire + 1 } else s6

/-- Helper: the angle normalization at the end of `Ship::move`
(`GLShip.cpp` lines 231-235), factored out for reasoning: subtract 360 if
above 360, then add 360 if below 0. -/
noncomputable def normAng (a : ℝ) : ℝ :=
  let b := if a > 360 then a - 360 else a
  if b < 0 then b + 360 else b

/-- `collisions::checkForCollision(Ship, Ship)` from
`GLCollisionController.cpp`, lines 43-72.  The C++ mutates the two ships
through setters; here the updated pair is returned. -/
noncomputable def checkForCollision (s1 s2 : Ship) : Ship × Ship :=
  let norm0 := s1.pos.sub s2.pos
  let distance := norm0.length
  let impactDistance := s1.radius + s2.radius
  let norm := norm0.normalize
  if distance < impactDistance then
    let temp := norm.smul ((impactDistance - distance) / 2)
    let pos1 := s1.pos.add temp
    let pos2 := s2.pos.sub temp
    let vel := s1.vel.sub s2.vel
    let impulse := (-(1 + COLLISION_COEFF) * norm.dot vel) /
                   (norm.dot norm * (1 / s1.mass + 1 / s2.mass))
    let v1 := s1.vel.add (norm.smul (impulse / s1.mass))
    let v2 := s2.vel.sub (norm.smul (impulse / s2.mass))
    ({ s1 with pos := pos1, vel := v1 }, { s2 with pos := pos2, vel := v2 })
  else
    (s1, s2)

/-- Axis-aligned rectangle, modelling `cugl::Rect` as used by
`collisions::checkInBounds`: origin `(ox, oy)` and size
`(width, height)`. -/
structure Rect where
  ox : ℝ
  oy : ℝ
  width : ℝ
  height : ℝ

/-- `collisions::checkInBounds(Ship, Rect)` from
`GLCollisionController.cpp`, lines 136-166.  The C++ copies `_vel`/`_pos`
into locals, runs the x-axis `if`/`else if` (writing the ship through
setters inside the taken branch), then the y-axis one on the (possibly
updated) locals.  A branch that is not taken leaves the ship's fields equal
to the locals, so writing the final locals back once is the same net
effect. -/
noncomputable def checkInBounds (ship : Ship) (bounds : Rect) : Ship :=
  let vel0 := ship.vel
  let pos0 := ship.pos
  let px : ℝ × ℝ :=
    if pos0.x ≤ bounds.ox then (bounds.ox, -vel0.x)
    else if pos0.x ≥ bounds.width + bounds.ox then (bounds.width + bounds.ox - 1, -vel0.x)
    else (pos0.x, vel0.x)
  let py : ℝ × ℝ :=
    if pos0.y ≤ bounds.oy then (bounds.oy, -vel0.y)
    else if pos0.y ≥ bounds.height + bounds.oy then (bounds.height + bounds.oy - 1, -vel0.y)
    else (pos0.y, vel0.y)
  { ship with pos := ⟨px.1, py.1⟩, vel := ⟨px.2, py.2⟩ }

/-- A single photon (`PhotonQueue::Photon` in `GLPhotonQueue.h`): position,
velocity, owning ship id, age in frames, drawing scale. -/
structure Photon where
  pos : Vec2
  vel : Vec2
  ship : ℤ
  age : ℤ
  scale : ℝ

/-- The preallocated "empty" photon (`Photon::Photon()` in
`GLPhotonQueue.h`): a photon with age `-1` that "does not exist". -/
def emptyPhoton : Photon := ⟨⟨0, 0⟩, ⟨0, 0⟩, 0, -1, 0⟩

/-- Modelled from the spec: `Photon::update` (its body is in
`GLPhotonQueue.cpp`, which is absent from `src/`) — "integrate position by
velocity, increment age by 1". -/
def Photon.update (p : Photon) : Photon :=
  { p with pos := p.pos.add p.vel, age := p.age + 1 }

/-- `Photon::destroy`: documented in `GLPhotonQueue.h` as setting the age
to the maximum so the photon is collected soon after.  `MAX_AGE` lives in
the missing `GLPhotonQueue.cpp`, so it is a parameter. -/
def Photon.destroy (MAX_AGE : ℤ) (p : Photon) : Photon :=
  { p with age := MAX_AGE }

/-- The photon queue (`PhotonQueue` in `GLPhotonQueue.h`): a circular
buffer of preallocated photons (`_queue`), head index `_qhead`, tail index
`_qtail` and live count `_qsize`.  The capacity is `queue.length`. -/
structure PhotonQueue where
  queue : List Photon
  qhead : ℕ
  qtail : ℕ
  qsize : ℕ

/-- The buffer slot holding the live photon of logical index `i`
(`0 = oldest`): raw index `(_qhead + i) % capacity`, as in the queue
invariant documented in `GLPhotonQueue.h`.  The `%` also keeps the access
total when the capacity is zero. -/
def PhotonQueue.liveGet (q : PhotonQueue) (i : ℕ) : Photon :=
  q.queue.getD ((q.qhead + i) % q.queue.length) emptyPhoton

/-- Overwrite the buffer slot of logical index `i`. -/
def PhotonQueue.setLive (q : PhotonQueue) (i : ℕ) (p : Photon) : PhotonQueue :=
  { q with queue := q.queue.set ((q.qhead + i) % q.queue.length) p }

/-- Modelled from the spec: `PhotonQueue::get` (its body is in
`GLPhotonQueue.cpp`, which is absent from `src/`) — "returns the live
projectile at logical index `0..liveCount-1` (0 = oldest), or none if the
index is out of the current live range". -/
def PhotonQueue.get (q : PhotonQueue) (pos : ℕ) : Option Photon :=
  if pos < q.qsize then some (q.liveGet pos) else none

/-- The logical index of buffer slot `idx`: its (circular) distance from
the head. -/
def logicalOf (cap qhead idx : ℕ) : ℕ := (idx + cap - qhead % cap) % cap

/-- Map a function of the slot index over a list, starting the index count
at `n` (plain structural recursion, used by `stepPhase`). -/
def mapIdxFrom (f : ℕ → Photon → Photon) : ℕ → List Photon → List Photon
  | _, [] => []
  | n, p :: rest => f n p :: mapIdxFrom f (n + 1) rest

/-- Modelled from the spec: the movement phase of `PhotonQueue::update`
(body in the missing `GLPhotonQueue.cpp`) — "for every live projectile,
integrate position by velocity, increment age by 1".  A buffer slot is live
when its logical index is below the live count. -/
def PhotonQueue.stepPhase (q : PhotonQueue) : PhotonQueue :=
  { q with queue := mapIdxFrom (fun idx p =>
      if logicalOf q.queue.length q.qhead idx < q.qsize then p.update else p) 0 q.queue }

/-- Modelled from the spec: the retirement phase of `PhotonQueue::update`
(body in the missing `GLPhotonQueue.cpp`) — "retire from the head all
projectiles whose age has reached MAX_AGE, advancing head and decrementing
live count for each".  The loop is run on explicit fuel; `update` supplies
the live count, which bounds the number of retirements. -/
def retireAux (MAX_AGE : ℤ) : ℕ → PhotonQueue → PhotonQueue
  | 0, q => q
  | fuel + 1, q =>
    if 0 < q.qsize ∧ MAX_AGE ≤ (q.liveGet 0).age then
      retireAux MAX_AGE fuel
        { q with qhead := (q.qhead + 1) % q.queue.length, qsize := q.qsize - 1 }
    else q

/-- Modelled from the spec: `PhotonQueue::update` (body in the missing
`GLPhotonQueue.cpp`) — movement phase, then head retirement. -/
def PhotonQueue.update (MAX_AGE : ℤ) (q : PhotonQueue) : PhotonQueue :=
  retireAux MAX_AGE q.qsize q.stepPhase

/-- One iteration of the photon loop of
`collisions::checkForCollision(Ship, PhotonQueue)`
(`GLCollisionController.cpp`, lines 95-121), for a photon that `get`
returned: skip photons owned by the ship (`photon->ship != ship->getSID()`
guard); otherwise run the overlap test and, on collision, correct the
ship's position, apply the impulse (photon mass `PHOTON_MASS`) to the
ship's velocity, and destroy the photon. -/
noncomputable def photonStep (MAX_AGE : ℤ) (pradius : ℝ) (s : Ship) (p : Photon) :
    Ship × Photon :=
  if p.ship ≠ s.sid then
    let norm0 := s.pos.sub p.pos
    let distance := norm0.length
    let impactDistance := s.radius + pradius * p.scale
    let norm := norm0.normalize
    if distance < impactDistance then
      let temp := norm.smul ((impactDistance - distance) / 2)
      let pos1 := s.pos.add temp
      let vel := s.vel.sub p.vel
      let impulse := (-(1 + COLLISION_COEFF) * norm.dot vel) /
                     (norm.dot norm * (1 / s.mass + 1 / PHOTON_MASS))
      let v1 := s.vel.add (norm.smul (impulse / s.mass))
      ({ s with pos := pos1, vel := v1 }, p.destroy MAX_AGE)
    else (s, p)
  else (s, p)

/-- The loop of `collisions::checkForCollision(Ship, PhotonQueue)` over an
explicit list of logical indices: fetch the photon with `get`, process it
with `photonStep`, write the result back into its slot.  The C++ mutates
the photon in place through the returned pointer. -/
noncomputable def checkPhotonsAux (MAX_AGE : ℤ) (pradius : ℝ) :
    List ℕ → Ship × PhotonQueue → Ship × PhotonQueue
  | [], sq => sq
  | ii :: rest, (s, q) =>
    match q.get ii with
    | none => checkPhotonsAux MAX_AGE pradius rest (s, q)
    | some p =>
      let sp := photonStep MAX_AGE pradius s p
      checkPhotonsAux MAX_AGE pradius rest (sp.1, q.setLive ii sp.2)

/-- `collisions::checkForCollision(Ship, PhotonQueue)` from
`GLCollisionController.cpp`, lines 83-125: loop `ii` over
`0 .. photons->size() - 1`.  The photon radius `pradius` comes from the
photon texture (rendering state), so it is a parameter; `MAX_AGE` is the
parameter `Photon.destroy` needs. -/
noncomputable def checkForCollisionPhotons (MAX_AGE : ℤ) (pradius : ℝ)
    (s : Ship) (q : PhotonQueue) : Ship × PhotonQueue :=
  checkPhotonsAux MAX_AGE pradius (List.range q.qsize) (s, q)

/-- Modelled from the spec's words for `resolveBounds` (refinement target
for the claim that the source treats the axes independently): the one-axis
reflect-and-clamp rule — at or below the low edge, negate the velocity and
clamp to the edge; at or past the far edge, negate the velocity and clamp
one unit inside the far edge. -/
noncomputable def specAxisReflect (low size p v : ℝ) : ℝ × ℝ :=
  if p ≤ low then (low, -v)
  else if p ≥ size + low then (size + low - 1, -v)
  else (p, v)

/-- Coarse model of an IEEE-754 float for the degenerate-geometry analysis:
either a finite value (held exactly, rounding and overflow not modelled) or
`undef`, which stands for every non-finite IEEE result (NaN or ±∞).
`undef` is absorbing for the arithmetic, which is sound: any IEEE operation
with a NaN operand yields NaN, and any with an infinite operand yields an
infinity or NaN. -/
inductive F where
  | fin (val : ℝ)
  | undef

/-- IEEE addition in the coarse model. -/
def F.add : F → F → F
  | F.fin a, F.fin b => F.fin (a + b)
  | _, _ => F.undef

/-- IEEE subtraction in the coarse model. -/
def F.sub : F → F → F
  | F.fin a, F.fin b => F.fin (a - b)
  | _, _ => F.undef

/-- IEEE multiplication in the coarse model. -/
def F.mul : F → F → F
  | F.fin a, F.fin b => F.fin (a * b)
  | _, _ => F.undef

/-- IEEE division in the coarse model: division by (exact) zero is
non-finite (`0/0` is NaN, `x/0` is ±∞ for `x ≠ 0`). -/
noncomputable def F.div : F → F → F
  | F.fin a, F.fin b => if b = 0 then F.undef else F.fin (a / b)
  | _, _ => F.undef

/-- IEEE square root in the coarse model (NaN for negative input). -/
noncomputable def F.sqrt : F → F
  | F.fin a => if a < 0 then F.undef else F.fin (Real.sqrt a)
  | F.undef => F.undef

/-- IEEE `<`: comparisons involving NaN are false; an infinity never
arises on the paths analysed here, so folding it into the false case is
harmless for those paths. -/
def F.lt : F → F → Prop
  | F.fin a, F.fin b => a < b
  | _, _ => False

/-- `cugl::Vec2` in the coarse float model. -/
structure FVec2 where
  x : F
  y : F

/-- Componentwise addition in the coarse float model. -/
def FVec2.add (v w : FVec2) : FVec2 := ⟨v.x.add w.x, v.y.add w.y⟩

/-- Componentwise subtraction in the coarse float model. -/
def FVec2.sub (v w : FVec2) : FVec2 := ⟨v.x.sub w.x, v.y.sub w.y⟩

/-- Scalar multiple in the coarse float model. -/
def FVec2.smul (v : FVec2) (c : F) : FVec2 := ⟨v.x.mul c, v.y.mul c⟩

/-- Dot product in the coarse float model. -/
def FVec2.dot (v w : FVec2) : F := (v.x.mul w.x).add (v.y.mul w.y)

/-- Length in the coarse float model. -/
noncomputable def FVec2.length (v : FVec2) : F := (v.dot v).sqrt

/-- `cugl::Vec2::normalize` in the coarse float model: `cugl` guards a
(near-)zero length by leaving the vector unchanged; the tolerance is
collapsed to exact zero here. -/
noncomputable def FVec2.normalize (v : FVec2) : FVec2 :=
  if v.length = F.fin 0 then v else v.smul ((F.fin 1).div v.length)

/-- Ship state in the coarse float model (only the fields the ship-ship
collision reads). -/
structure FShip where
  pos : FVec2
  vel : FVec2
  radius : F
  mass : F

/-- `collisions::checkForCollision(Ship, Ship)` in the coarse float model:
the same lines 43-72 of `GLCollisionController.cpp` as `checkForCollision`,
with IEEE non-finite results tracked.  Used to analyse the zero-distance
(coincident centers) path, which the real-valued model cannot distinguish
because there `0 / 0 = 0`. -/
noncomputable def checkForCollisionF (s1 s2 : FShip) : FShip × FShip :=
  let norm0 := s1.pos.sub s2.pos
  let distance := norm0.length
  let impactDistance := s1.radius.add s2.radius
  let norm := norm0.normalize
  if F.lt distance impactDistance then
    let temp := norm.smul ((impactDistance.sub distance).div (F.fin 2))
    let pos1 := s1.pos.add temp
    let pos2 := s2.pos.sub temp
    let vel := s1.vel.sub s2.vel
    let impulse := ((F.fin (-(1 + (0.1 : ℝ)))).mul (norm.dot vel)).div
                   ((norm.dot norm).mul (((F.fin 1).div s1.mass).add ((F.fin 1).div s2.mass)))
    let v1 := s1.vel.add (norm.smul (impulse.div s1.mass))
    let v2 := s2.vel.sub (norm.smul (impulse.div s2.mass))
    ({ s1 with pos := pos1, vel := v1 }, { s2 with pos := pos2, vel := v2 })
  else
    (s1, s2)

@[simp]
theorem vel_ite (c : Prop) [Decidable c] (a b : Ship) :
    (ite c a b).vel = ite c a.vel b.vel := by
  split <;> rfl

@[simp]
theorem ang_ite (c : Prop) [Decidable c] (a b : Ship) :
    (ite c a b).ang = ite c a.ang b.ang := by
  split <;> rfl

@[simp]
theorem dang_ite (c : Prop) [Decidable c] (a b : Ship) :
    (ite c a b).dang = ite c a.dang b.dang := by
  split <;> rfl

@[simp]
theorem pos_ite (c : Prop) [Decidable c] (a b : Ship) :
    (ite c a b).pos = ite c a.pos b.pos := by
  split <;> rfl

@[simp]
theorem refire_ite (c : Prop) [Decidable c] (a b : Ship) :
    (ite c a b).refire = ite c a.refire b.refire := by
  split <;> rfl

@[simp]
theorem processTurn_ang (s : Ship) (turn : ℝ) : (processTurn s turn).ang = s.ang := by
  unfold processTurn; split <;> rfl

@[simp]
theorem processTurn_vel (s : Ship) (turn : ℝ) : (processTurn s turn).vel = s.vel := by
  unfold processTurn; split <;> rfl

@[simp]
theorem processTurn_pos (s : Ship) (turn : ℝ) : (processTurn s turn).pos = s.pos := by
  unfold processTurn; split <;> rfl

@[simp]
theorem processTurn_refire (s : Ship) (turn : ℝ) :
    (processTurn s turn).refire = s.refire := by
  unfold processTurn; split <;> rfl

theorem processTurn_dang_bound (s : Ship) (turn : ℝ)
    (h1 : -MAXIMUM_BANK ≤ s.dang) (h2 : s.dang ≤ MAXIMUM_BANK) :
    -MAXIMUM_BANK ≤ (processTurn s turn).dang ∧
      (processTurn s turn).dang ≤ MAXIMUM_BANK := by
  unfold processTurn
  rw [MAXIMUM_BANK] at *
  split
  · simp only
    split_ifs with hlt hgt <;> constructor <;> norm_num <;> linarith
  · simp only
    rw [ANGULAR_DAMPING]
    split_ifs with hz <;> constructor <;> nlinarith

theorem move_vel (R : ℤ) (s : Ship) (f t : ℝ) :
    (Ship.move R s f t).vel =
      if f ≠ 0 then
        s.vel.add (((⟨Real.cos (Real.pi * s.ang / 180 + Real.pi / 2),
          Real.sin (Real.pi * s.ang / 180 + Real.pi / 2)⟩ : Vec2).smul f).smul THRUST_FACTOR)
      else s.vel.smul FORWARD_DAMPING := by
  rw [Ship.move]
  simp

theorem move_ang (R : ℤ) (s : Ship) (f t : ℝ) :
    (Ship.move R s f t).ang = normAng (s.ang + (processTurn s t).dang) := by
  rw [Ship.move, normAng]
  simp

theorem move_refire (R : ℤ) (s : Ship) (f t : ℝ) :
    (Ship.move R s f t).refire =
      if s.refire ≤ R then s.refire + 1 else s.refire := by
  rw [Ship.move]
  simp

theorem normAng_range (a : ℝ) (h1 : -MAXIMUM_BANK ≤ a) (h2 : a < 360 + MAXIMUM_BANK) :
    0 ≤ normAng a ∧ normAng a ≤ 360 := by
  rw [MAXIMUM_BANK] at h1 h2
  rw [normAng]
  split_ifs <;> constructor <;> linarith

/-- C3: a single `Ship::move` with `forwardIntent ≠ 0` adds
`unit_vector(facing angle) * forwardIntent * THRUST_FACTOR` to the ship's
velocity (the facing unit vector being
`(cos(π·ang/180 + π/2), sin(π·ang/180 + π/2))`, read before the angular
update, as in the source); with `forwardIntent = 0` it instead multiplies
the velocity by `FORWARD_DAMPING`. -/
theorem c3_thrust (R : ℤ) (s : Ship) (forward turn : ℝ) :
    (forward ≠ 0 →
      (Ship.move R s forward turn).vel =
        s.vel.add (((⟨Real.cos (Real.pi * s.ang / 180 + Real.pi / 2),
          Real.sin (Real.pi * s.ang / 180 + Real.pi / 2)⟩ : Vec2).smul forward).smul
            THRUST_FACTOR)) ∧
    (forward = 0 →
      (Ship.move R s forward turn).vel = s.vel.smul FORWARD_DAMPING) := by
  rw [move_vel]
  constructor
  · intro h; rw [if_pos h]
  · intro h; rw [if_neg (by simp [h])]

/-- Witness for C3 at a concrete ship with `forwardIntent = 1`. -/
theorem c3_thrust_witness :
    (Ship.move 30 ⟨⟨0, 0⟩, ⟨0, 0⟩, 0, 0, 40, 1, 0, 0⟩ 1 0).vel =
      (Vec2.mk 0 0).add (((⟨Real.cos (Real.pi * 0 / 180 + Real.pi / 2),
        Real.sin (Real.pi * 0 / 180 + Real.pi / 2)⟩ : Vec2).smul 1).smul THRUST_FACTOR) :=
  (c3_thrust 30 ⟨⟨0, 0⟩, ⟨0, 0⟩, 0, 0, 40, 1, 0, 0⟩ 1 0).1 (by norm_num)

/-- Counterexample to C4 as stated: for the ship with facing angle `355`
and angular rate `-5` (both within the claim's assumptions), one
`Ship::move` with `turnIntent = -1` drives the angular rate to exactly `+5`
and the angle to `355 + 5 = 360`, and the source's renormalization
(`if (_ang > 360)`) does not fire at exactly `360`, so the resulting angle
is `360`, outside `[0, 360)`. -/
theorem c4_counterexample :
    ((0:ℝ) ≤ 355 ∧ (355:ℝ) < 360) ∧
    (-MAXIMUM_BANK ≤ (-5:ℝ) ∧ (-5:ℝ) ≤ MAXIMUM_BANK) ∧
    (Ship.move 30 ⟨⟨0, 0⟩, ⟨0, 0⟩, 355, -5, 40, 1, 0, 0⟩ 0 (-1)).ang = 360 ∧
    ¬ ((Ship.move 30 ⟨⟨0, 0⟩, ⟨0, 0⟩, 355, -5, 40, 1, 0, 0⟩ 0 (-1)).ang < 360) := by
  rw [MAXIMUM_BANK]
  have h : (Ship.move 30 ⟨⟨0, 0⟩, ⟨0, 0⟩, 355, -5, 40, 1, 0, 0⟩ 0 (-1)).ang = 360 := by
    rw [move_ang]
    rw [processTurn]
    rw [if_pos (by norm_num : (-1:ℝ) ≠ 0)]
    simp only
    rw [BANK_FACTOR, MAXIMUM_BANK]
    norm_num [normAng]
  refine ⟨by norm_num, by norm_num, h, by rw [h]; norm_num⟩

/-- C4 (amended): after one `Ship::move`, the facing angle lies in the
closed interval `[0, 360]` — exactly `360` is reachable because the
renormalization subtracts only when the angle strictly exceeds `360` —
assuming the angle was in `[0, 360)` and the angular rate in
`[-MAXIMUM_BANK, MAXIMUM_BANK]` before the call. -/
theorem c4_angle_range (R : ℤ) (s : Ship) (f t : ℝ)
    (h0 : 0 ≤ s.ang) (h1 : s.ang < 360)
    (h2 : -MAXIMUM_BANK ≤ s.dang) (h3 : s.dang ≤ MAXIMUM_BANK) :
    0 ≤ (Ship.move R s f t).ang ∧ (Ship.move R s f t).ang ≤ 360 := by
  rw [move_ang]
  obtain ⟨b1, b2⟩ := processTurn_dang_bound s t h2 h3
  refine normAng_range _ ?_ ?_
  · rw [MAXIMUM_BANK] at *; linarith
  · rw [MAXIMUM_BANK] at *; linarith

/-- Witness for C4 (amended) at a concrete ship. -/
theorem c4_angle_range_witness :
    0 ≤ (Ship.move 30 ⟨⟨0, 0⟩, ⟨0, 0⟩, 10, 1, 40, 1, 0, 0⟩ 0 0).ang ∧
      (Ship.move 30 ⟨⟨0, 0⟩, ⟨0, 0⟩, 10, 1, 40, 1, 0, 0⟩ 0 0).ang ≤ 360 :=
  c4_angle_range 30 ⟨⟨0, 0⟩, ⟨0, 0⟩, 10, 1, 40, 1, 0, 0⟩ 0 0
    (by norm_num) (by norm_num)
    (by rw [MAXIMUM_BANK]; norm_num) (by rw [MAXIMUM_BANK]; norm_num)

/-- Counterexample to C5 as stated: the source increments while
`_refire <= RELOAD_RATE` (not `<`), so a ship whose counter sits exactly at
the reload threshold (here `30`) is incremented to `31`, one past the
threshold — the claim's "saturated exactly at the threshold" and "never
exceeds the reload threshold" both fail. -/
theorem c5_counterexample :
    (Ship.move 30 ⟨⟨0, 0⟩, ⟨0, 0⟩, 0, 0, 40, 1, 0, 30⟩ 0 0).refire = 31 ∧
    ¬ ((Ship.move 30 ⟨⟨0, 0⟩, ⟨0, 0⟩, 0, 0, 40, 1, 0, 30⟩ 0 0).refire ≤ 30) := by
  rw [move_refire]
  norm_num

/-- C5 (amended): each `Ship::move` increments the refire counter by
exactly 1 while it is at or below the reload threshold and leaves it
unchanged otherwise; consequently the counter never exceeds
`RELOAD_RATE + 1` (saturating there, one past the threshold) and never
goes below zero. -/
theorem c5_refire (R : ℤ) (s : Ship) (f t : ℝ) :
    (s.refire ≤ R → (Ship.move R s f t).refire = s.refire + 1) ∧
    (R < s.refire → (Ship.move R s f t).refire = s.refire) ∧
    (s.refire ≤ R + 1 → (Ship.move R s f t).refire ≤ R + 1) ∧
    (0 ≤ s.refire → 0 ≤ (Ship.move R s f t).refire) := by
  rw [move_refire]
  split_ifs with h
  · exact ⟨fun _ => rfl, fun hc => absurd h (not_le.mpr hc), fun _ => by omega,
      fun h0 => by omega⟩
  · exact ⟨fun hc => absurd hc h, fun _ => rfl, fun hc => hc, fun h0 => h0⟩

/-- Witness for C5 (amended) at a counter strictly below the threshold. -/
theorem c5_refire_witness :
    (Ship.move 30 ⟨⟨0, 0⟩, ⟨0, 0⟩, 0, 0, 40, 1, 0, 7⟩ 0 0).refire = 7 + 1 :=
  (c5_refire 30 ⟨⟨0, 0⟩, ⟨0, 0⟩, 0, 0, 40, 1, 0, 7⟩ 0 0).1 (by norm_num)

/-- C8: `collisions::checkInBounds(Ship, Rect)` treats the two axes
independently — each axis of the result equals the spec's one-axis
reflect-and-clamp rule applied to that axis alone, so a corner contact
reflects both axes in one call.  On each axis: position at or below the low
edge negates that velocity component and clamps the position to the low
edge; position at or past the far edge (for a rectangle of positive
extent) negates the component and clamps to the far edge minus one unit.
In particular a ship exactly at `bounds.origin.x` with negative x-velocity
leaves the call with its x-velocity sign flipped (now positive) and its
x-position clamped to the boundary. -/
theorem c8_bounds (s : Ship) (b : Rect) :
    (((checkInBounds s b).pos.x, (checkInBounds s b).vel.x) =
        specAxisReflect b.ox b.width s.pos.x s.vel.x) ∧
    (((checkInBounds s b).pos.y, (checkInBounds s b).vel.y) =
        specAxisReflect b.oy b.height s.pos.y s.vel.y) ∧
    (s.pos.x ≤ b.ox →
      (checkInBounds s b).vel.x = -s.vel.x ∧ (checkInBounds s b).pos.x = b.ox) ∧
    (0 < b.width → s.pos.x ≥ b.width + b.ox →
      (checkInBounds s b).vel.x = -s.vel.x ∧
        (checkInBounds s b).pos.x = b.width + b.ox - 1) ∧
    (s.pos.x ≤ b.ox → s.pos.y ≤ b.oy →
      (checkInBounds s b).vel.x = -s.vel.x ∧ (checkInBounds s b).vel.y = -s.vel.y) ∧
    (s.pos.x = b.ox → s.vel.x < 0 →
      (checkInBounds s b).vel.x = -s.vel.x ∧ 0 < (checkInBounds s b).vel.x ∧
        (checkInBounds s b).pos.x = b.ox) := by
  have hx : ((checkInBounds s b).pos.x, (checkInBounds s b).vel.x) =
      specAxisReflect b.ox b.width s.pos.x s.vel.x := by
    rw [checkInBounds, specAxisReflect]
  have hy : ((checkInBounds s b).pos.y, (checkInBounds s b).vel.y) =
      specAxisReflect b.oy b.height s.pos.y s.vel.y := by
    rw [checkInBounds, specAxisReflect]
  refine ⟨hx, hy, ?_, ?_, ?_, ?_⟩
  · intro h
    rw [specAxisReflect, if_pos h, Prod.mk.injEq] at hx
    exact ⟨hx.2, hx.1⟩
  · intro hw h
    rw [specAxisReflect, if_neg (by linarith), if_pos h, Prod.mk.injEq] at hx
    exact ⟨hx.2, hx.1⟩
  · intro h1 h2
    rw [specAxisReflect, if_pos h1, Prod.mk.injEq] at hx
    rw [specAxisReflect, if_pos h2, Prod.mk.injEq] at hy
    exact ⟨hx.2, hy.2⟩
  · intro h1 h2
    rw [specAxisReflect, if_pos (le_of_eq h1), Prod.mk.injEq] at hx
    exact ⟨hx.2, by rw [hx.2]; linarith, hx.1⟩

/-- Witness for C8 at a concrete ship on the left boundary with inward
bounds. -/
theorem c8_bounds_witness :
    (checkInBounds ⟨⟨0, 50⟩, ⟨-3, 0⟩, 0, 0, 40, 1, 0, 0⟩ ⟨0, 0, 800, 600⟩).vel.x = -(-3) ∧
    0 < (checkInBounds ⟨⟨0, 50⟩, ⟨-3, 0⟩, 0, 0, 40, 1, 0, 0⟩ ⟨0, 0, 800, 600⟩).vel.x ∧
    (checkInBounds ⟨⟨0, 50⟩, ⟨-3, 0⟩, 0, 0, 40, 1, 0, 0⟩ ⟨0, 0, 800, 600⟩).pos.x = 0 :=
  (c8_bounds ⟨⟨0, 50⟩, ⟨-3, 0⟩, 0, 0, 40, 1, 0, 0⟩ ⟨0, 0, 800, 600⟩).2.2.2.2.2
    rfl (by norm_num)

/-- C10 (implicit): `collisions::checkForCollision(Ship, Ship)` conserves
total linear momentum exactly (in the exact-real model of the float
arithmetic): `massA·velA + massB·velB` is unchanged by the call, for
strictly positive masses and distinct positions, because the impulse enters
the two velocities with opposite signs scaled by the inverse masses. -/
theorem length_nonneg (v : Vec2) : 0 ≤ v.length := Real.sqrt_nonneg _

theorem length_smul (v : Vec2) (c : ℝ) : (v.smul c).length = |c| * v.length := by
  rw [Vec2.length, Vec2.length, Vec2.smul, Vec2.dot, Vec2.dot]
  have h : v.x * c * (v.x * c) + v.y * c * (v.y * c) = c ^ 2 * (v.x * v.x + v.y * v.y) := by
    ring
  rw [h, Real.sqrt_mul (sq_nonneg c), Real.sqrt_sq_eq_abs]

/-- Positional correction geometry: pushing the two centers apart along the
normalized displacement by half the overlap each leaves them exactly `R`
apart, provided they were a positive distance apart before. -/
theorem sep_after (p1 p2 : Vec2) (R : ℝ)
    (h0 : 0 < (p1.sub p2).length) (hR : (p1.sub p2).length < R) :
    ((p1.add ((p1.sub p2).normalize.smul ((R - (p1.sub p2).length) / 2))).sub
        (p2.sub ((p1.sub p2).normalize.smul ((R - (p1.sub p2).length) / 2)))).length = R := by
  have hRpos : 0 < R := lt_trans h0 hR
  obtain ⟨x1, y1⟩ := p1
  obtain ⟨x2, y2⟩ := p2
  simp only [Vec2.sub, Vec2.normalize, Vec2.smul, Vec2.add] at *
  set L := Vec2.length ⟨x1 - x2, y1 - y2⟩ with hL0
  have hL : L ≠ 0 := ne_of_gt h0
  have hx : x1 + (x1 - x2) * (1 / L) * ((R - L) / 2) -
      (x2 - (x1 - x2) * (1 / L) * ((R - L) / 2)) = (x1 - x2) * (R / L) := by
    field_simp
    ring
  have hy : y1 + (y1 - y2) * (1 / L) * ((R - L) / 2) -
      (y2 - (y1 - y2) * (1 / L) * ((R - L) / 2)) = (y1 - y2) * (R / L) := by
    field_simp
    ring
  rw [hx, hy]
  have hsm : (Vec2.mk ((x1 - x2) * (R / L)) ((y1 - y2) * (R / L))) =
      (Vec2.mk (x1 - x2) (y1 - y2)).smul (R / L) := rfl
  rw [hsm, length_smul, ← hL0, abs_of_pos (div_pos hRpos h0), div_mul_cancel₀ _ hL]

theorem momentum_cancel (vx1 vx2 nx i m1 m2 : ℝ) (h1 : m1 ≠ 0) (h2 : m2 ≠ 0) :
    (vx1 + nx * (i / m1)) * m1 + (vx2 - nx * (i / m2)) * m2 = vx1 * m1 + vx2 * m2 := by
  field_simp

theorem c10_momentum (s1 s2 : Ship)
    (h1 : 0 < s1.mass) (h2 : 0 < s2.mass) (_h3 : s1.pos ≠ s2.pos) :
    ((checkForCollision s1 s2).1.vel.smul s1.mass).add
        ((checkForCollision s1 s2).2.vel.smul s2.mass) =
      (s1.vel.smul s1.mass).add (s2.vel.smul s2.mass) := by
  rw [checkForCollision]
  split_ifs with hcol
  · simp only [Vec2.add, Vec2.sub, Vec2.smul, Vec2.mk.injEq]
    exact ⟨momentum_cancel _ _ _ _ _ _ (ne_of_gt h1) (ne_of_gt h2),
           momentum_cancel _ _ _ _ _ _ (ne_of_gt h1) (ne_of_gt h2)⟩
  · rfl

/-- Counterexample to C1 as stated: two ships whose centers coincide
(distance 0, which is less than the sum of the radii, so the claim's
premise holds).  The displacement normal has length zero, `cugl`'s
`normalize` leaves it the zero vector, the positional correction moves
neither ship, and afterwards the center distance is still 0 < 80: the
ships still overlap, contradicting the claim's "afterwards the ships no
longer overlap". -/
theorem c1_counterexample :
    ((Vec2.mk 0 0).sub ⟨0, 0⟩).length < (40 : ℝ) + 40 ∧
    ¬ ((40 : ℝ) + 40 ≤
        ((checkForCollision ⟨⟨0, 0⟩, ⟨5, 0⟩, 0, 0, 40, 1, 0, 0⟩
            ⟨⟨0, 0⟩, ⟨-5, 0⟩, 0, 0, 40, 1, 1, 0⟩).1.pos.sub
          (checkForCollision ⟨⟨0, 0⟩, ⟨5, 0⟩, 0, 0, 40, 1, 0, 0⟩
            ⟨⟨0, 0⟩, ⟨-5, 0⟩, 0, 0, 40, 1, 1, 0⟩).2.pos).length) := by
  have hlen0 : ((Vec2.mk 0 0).sub ⟨0, 0⟩).length = 0 := by
    rw [Vec2.sub, Vec2.length, Vec2.dot]
    norm_num
  constructor
  · rw [hlen0]; norm_num
  · have hEq : checkForCollision ⟨⟨0, 0⟩, ⟨5, 0⟩, 0, 0, 40, 1, 0, 0⟩
        ⟨⟨0, 0⟩, ⟨-5, 0⟩, 0, 0, 40, 1, 1, 0⟩ =
        (⟨⟨0, 0⟩, ⟨5, 0⟩, 0, 0, 40, 1, 0, 0⟩, ⟨⟨0, 0⟩, ⟨-5, 0⟩, 0, 0, 40, 1, 1, 0⟩) := by
      rw [checkForCollision]
      rw [if_pos (by rw [hlen0]; norm_num)]
      norm_num [Vec2.sub, Vec2.normalize, Vec2.length, Vec2.dot, Vec2.smul, Vec2.add]
    rw [hEq, hlen0]
    norm_num

/-- C1 (amended): for ships whose center distance is positive and less
than the sum of the radii, `collisions::checkForCollision(Ship, Ship)`
moves each ship half the overlap apart along the normalized displacement
`normalize(posA - posB)`, changes the velocities by `+impulse/massA`
(ship1) and `-impulse/massB` (ship2) along that normal with
`impulse = -(1+ε)·(n·relVel) / (n·n·(1/massA + 1/massB))`, ε being
`COLLISION_COEFF`; afterwards the center distance equals the sum of the
radii, so the ships no longer overlap.  When the center distance is not
less than the sum of the radii, neither ship is modified.  (The amendment
excludes exactly coincident centers, where the zero normal defeats the
separation — see the counterexample.) -/
theorem c1_ship_collision (s1 s2 : Ship) :
    (0 < (s1.pos.sub s2.pos).length →
      (s1.pos.sub s2.pos).length < s1.radius + s2.radius →
      (checkForCollision s1 s2).1.pos =
          s1.pos.add ((s1.pos.sub s2.pos).normalize.smul
            ((s1.radius + s2.radius - (s1.pos.sub s2.pos).length) / 2)) ∧
      (checkForCollision s1 s2).2.pos =
          s2.pos.sub ((s1.pos.sub s2.pos).normalize.smul
            ((s1.radius + s2.radius - (s1.pos.sub s2.pos).length) / 2)) ∧
      (checkForCollision s1 s2).1.vel =
          s1.vel.add ((s1.pos.sub s2.pos).normalize.smul
            (((-(1 + COLLISION_COEFF) * (s1.pos.sub s2.pos).normalize.dot (s1.vel.sub s2.vel)) /
              ((s1.pos.sub s2.pos).normalize.dot (s1.pos.sub s2.pos).normalize *
                (1 / s1.mass + 1 / s2.mass))) / s1.mass)) ∧
      (checkForCollision s1 s2).2.vel =
          s2.vel.sub ((s1.pos.sub s2.pos).normalize.smul
            (((-(1 + COLLISION_COEFF) * (s1.pos.sub s2.pos).normalize.dot (s1.vel.sub s2.vel)) /
              ((s1.pos.sub s2.pos).normalize.dot (s1.pos.sub s2.pos).normalize *
                (1 / s1.mass + 1 / s2.mass))) / s2.mass)) ∧
      ((checkForCollision s1 s2).1.pos.sub (checkForCollision s1 s2).2.pos).length =
          s1.radius + s2.radius) ∧
    (¬ (s1.pos.sub s2.pos).length < s1.radius + s2.radius →
      checkForCollision s1 s2 = (s1, s2)) := by
  constructor
  · intro h0 hcol
    have hEq : checkForCollision s1 s2 =
        ({ s1 with
            pos := s1.pos.add ((s1.pos.sub s2.pos).normalize.smul
              ((s1.radius + s2.radius - (s1.pos.sub s2.pos).length) / 2)),
            vel := s1.vel.add ((s1.pos.sub s2.pos).normalize.smul
              (((-(1 + COLLISION_COEFF) *
                  (s1.pos.sub s2.pos).normalize.dot (s1.vel.sub s2.vel)) /
                ((s1.pos.sub s2.pos).normalize.dot (s1.pos.sub s2.pos).normalize *
                  (1 / s1.mass + 1 / s2.mass))) / s1.mass)) },
         { s2 with
            pos := s2.pos.sub ((s1.pos.sub s2.pos).normalize.smul
              ((s1.radius + s2.radius - (s1.pos.sub s2.pos).length) / 2)),
            vel := s2.vel.sub ((s1.pos.sub s2.pos).normalize.smul
              (((-(1 + COLLISION_COEFF) *
                  (s1.pos.sub s2.pos).normalize.dot (s1.vel.sub s2.vel)) /
                ((s1.pos.sub s2.pos).normalize.dot (s1.pos.sub s2.pos).normalize *
                  (1 / s1.mass + 1 / s2.mass))) / s2.mass)) }) := by
      rw [checkForCollision, if_pos hcol]
    refine ⟨by rw [hEq], by rw [hEq], by rw [hEq], by rw [hEq], ?_⟩
    rw [hEq]
    exact sep_after s1.pos s2.pos (s1.radius + s2.radius) h0 hcol
  · intro h
    rw [checkForCollision, if_neg h]

/-- Witness for C1 (amended): the spec's scenario — two radius-40 ships 70
apart head-on; after the call the centers are exactly 80 apart. -/
theorem c1_ship_collision_witness :
    ((checkForCollision ⟨⟨0, 0⟩, ⟨5, 0⟩, 0, 0, 40, 1, 0, 0⟩
        ⟨⟨70, 0⟩, ⟨-5, 0⟩, 0, 0, 40, 1, 1, 0⟩).1.pos.sub
      (checkForCollision ⟨⟨0, 0⟩, ⟨5, 0⟩, 0, 0, 40, 1, 0, 0⟩
        ⟨⟨70, 0⟩, ⟨-5, 0⟩, 0, 0, 40, 1, 1, 0⟩).2.pos).length = (40 : ℝ) + 40 := by
  have hlen : ((Vec2.mk 0 0).sub ⟨70, 0⟩).length = 70 := by
    rw [Vec2.sub, Vec2.length, Vec2.dot]
    rw [show ((0 : ℝ) - 70) * ((0 : ℝ) - 70) + ((0 : ℝ) - 0) * ((0 : ℝ) - 0) = 70 ^ 2 by
      norm_num]
    rw [Real.sqrt_sq (by norm_num)]
  exact ((c1_ship_collision ⟨⟨0, 0⟩, ⟨5, 0⟩, 0, 0, 40, 1, 0, 0⟩
      ⟨⟨70, 0⟩, ⟨-5, 0⟩, 0, 0, 40, 1, 1, 0⟩).1
    (by rw [show ((Vec2.mk 0 0).sub ⟨70, 0⟩).length = 70 from hlen]; norm_num)
    (by rw [show ((Vec2.mk 0 0).sub ⟨70, 0⟩).length = 70 from hlen]; norm_num)).2.2.2.2

/-- Witness for C10: two equal-mass ships head-on, 70 apart with radius 40
each (the spec's scenario geometry). -/
theorem c10_momentum_witness :
    ((checkForCollision ⟨⟨0, 0⟩, ⟨5, 0⟩, 0, 0, 40, 1, 0, 0⟩
        ⟨⟨70, 0⟩, ⟨-5, 0⟩, 0, 0, 40, 1, 1, 0⟩).1.vel.smul 1).add
      ((checkForCollision ⟨⟨0, 0⟩, ⟨5, 0⟩, 0, 0, 40, 1, 0, 0⟩
        ⟨⟨70, 0⟩, ⟨-5, 0⟩, 0, 0, 40, 1, 1, 0⟩).2.vel.smul 1) =
      ((⟨5, 0⟩ : Vec2).smul 1).add ((⟨-5, 0⟩ : Vec2).smul 1) :=
  c10_momentum ⟨⟨0, 0⟩, ⟨5, 0⟩, 0, 0, 40, 1, 0, 0⟩ ⟨⟨70, 0⟩, ⟨-5, 0⟩, 0, 0, 40, 1, 1, 0⟩
    (by norm_num) (by norm_num) (by simp [Vec2.mk.injEq])

/-- C2 at the failing input (code bug): two ships whose positions exactly
coincide.  The source (`GLCollisionController.cpp` lines 43-72) has no
zero-length-normal guard: the overlap test `distance < impactDistance`
reads `0 < 80` and fires, and the impulse divides the zero numerator by
the zero denominator `norm.dot(norm) * (1/mA + 1/mB) = 0`, an IEEE
`0 / 0 = NaN`, which then propagates into all four velocity components of
the two ships.  In the coarse float model that is `F.undef`; the claim's
required outcome — treat as no collision, mutate nothing, produce no NaN —
does not happen. -/
theorem c2_zero_normal_nan :
    ((checkForCollisionF ⟨⟨F.fin 0, F.fin 0⟩, ⟨F.fin 5, F.fin 0⟩, F.fin 40, F.fin 1⟩
        ⟨⟨F.fin 0, F.fin 0⟩, ⟨F.fin (-5), F.fin 0⟩, F.fin 40, F.fin 1⟩).1.vel.x = F.undef) ∧
    ((checkForCollisionF ⟨⟨F.fin 0, F.fin 0⟩, ⟨F.fin 5, F.fin 0⟩, F.fin 40, F.fin 1⟩
        ⟨⟨F.fin 0, F.fin 0⟩, ⟨F.fin (-5), F.fin 0⟩, F.fin 40, F.fin 1⟩).1.vel.y = F.undef) ∧
    ((checkForCollisionF ⟨⟨F.fin 0, F.fin 0⟩, ⟨F.fin 5, F.fin 0⟩, F.fin 40, F.fin 1⟩
        ⟨⟨F.fin 0, F.fin 0⟩, ⟨F.fin (-5), F.fin 0⟩, F.fin 40, F.fin 1⟩).2.vel.x = F.undef) ∧
    ((checkForCollisionF ⟨⟨F.fin 0, F.fin 0⟩, ⟨F.fin 5, F.fin 0⟩, F.fin 40, F.fin 1⟩
        ⟨⟨F.fin 0, F.fin 0⟩, ⟨F.fin (-5), F.fin 0⟩, F.fin 40, F.fin 1⟩).2.vel.y = F.undef) := by
  norm_num [checkForCollisionF, FVec2.sub, FVec2.add, FVec2.smul, FVec2.dot, FVec2.length,
    FVec2.normalize, F.add, F.sub, F.mul, F.div, F.sqrt, F.lt, Real.sqrt_zero]

theorem set_getD_self (l : List Photon) (n : ℕ) (d : Photon) :
    l.set n (l.getD n d) = l := by
  induction l generalizing n with
  | nil => rfl
  | cons a t ih =>
    cases n with
    | zero => simp [List.getD]
    | succ m =>
      rw [List.getD_cons_succ]
      show a :: t.set m (t.getD m d) = a :: t
      rw [ih]

theorem getD_set_self (l : List Photon) (n : ℕ) (a d : Photon) (h : n < l.length) :
    (l.set n a).getD n d = a := by
  simp [List.getD_eq_getElem?_getD, List.getElem?_set_self', h]

theorem getD_set_ne (l : List Photon) (n m : ℕ) (a d : Photon) (h : n ≠ m) :
    (l.set n a).getD m d = l.getD m d := by
  simp [List.getD_eq_getElem?_getD, List.getElem?_set_ne h]

/-- Two distinct logical indices within the capacity occupy distinct raw
slots of the circular buffer. -/
theorem slot_inj (cap h : ℕ) {i j : ℕ} (hi : i < cap) (hj : j < cap)
    (he : (h + i) % cap = (h + j) % cap) : i = j := by
  have h1 : i ≡ j [MOD cap] := Nat.ModEq.add_left_cancel' h he
  rwa [Nat.ModEq, Nat.mod_eq_of_lt hi, Nat.mod_eq_of_lt hj] at h1

/-- The logical index of the raw slot of logical index `i` is `i` again. -/
theorem logicalOf_slot (cap h i : ℕ) (hh : h < cap) (hi : i < cap) :
    logicalOf cap h ((h + i) % cap) = i := by
  rw [logicalOf, Nat.mod_eq_of_lt hh]
  rcases Nat.lt_or_ge (h + i) cap with hc | hc
  · rw [Nat.mod_eq_of_lt hc]
    have he : h + i + cap - h = i + cap := by omega
    rw [he, Nat.add_mod_right, Nat.mod_eq_of_lt hi]
  · have hcap : 0 < cap := lt_of_le_of_lt (Nat.zero_le h) hh
    have h2 : (h + i) % cap = h + i - cap := by
      have hlt : h + i - cap < cap := by omega
      rw [Nat.mod_eq_sub_mod hc, Nat.mod_eq_of_lt hlt]
    rw [h2]
    have he : h + i - cap + cap - h = i := by omega
    rw [he, Nat.mod_eq_of_lt hi]

theorem length_mapIdxFrom (f : ℕ → Photon → Photon) :
    ∀ (n : ℕ) (l : List Photon), (mapIdxFrom f n l).length = l.length := by
  intro n l
  induction l generalizing n with
  | nil => rfl
  | cons a t ih => simp [mapIdxFrom, ih]

theorem getD_mapIdxFrom (f : ℕ → Photon → Photon) (l : List Photon) :
    ∀ (n m : ℕ) (d : Photon),
      (mapIdxFrom f n l).getD m d =
        if m < l.length then f (n + m) (l.getD m d) else d := by
  induction l with
  | nil => intro n m d; simp [mapIdxFrom, List.getD]
  | cons a t ih =>
    intro n m d
    cases m with
    | zero => simp [mapIdxFrom]
    | succ m =>
      have he : n + 1 + m = n + (m + 1) := by omega
      show (f n a :: mapIdxFrom f (n + 1) t).getD (m + 1) d = _
      rw [List.getD_cons_succ, ih (n + 1) m d, List.getD_cons_succ]
      simp [Nat.succ_lt_succ_iff, he]

@[simp]
theorem setLive_qsize (q : PhotonQueue) (i : ℕ) (p : Photon) :
    (q.setLive i p).qsize = q.qsize := rfl

@[simp]
theorem setLive_qhead (q : PhotonQueue) (i : ℕ) (p : Photon) :
    (q.setLive i p).qhead = q.qhead := rfl

@[simp]
theorem setLive_length (q : PhotonQueue) (i : ℕ) (p : Photon) :
    (q.setLive i p).queue.length = q.queue.length := by
  simp [PhotonQueue.setLive]

theorem liveGet_setLive_self (q : PhotonQueue) (i : ℕ) (p : Photon)
    (hi : i < q.qsize) (hsz : q.qsize ≤ q.queue.length) :
    (q.setLive i p).liveGet i = p := by
  have hcap : 0 < q.queue.length := lt_of_le_of_lt (Nat.zero_le i) (lt_of_lt_of_le hi hsz)
  rw [PhotonQueue.liveGet, PhotonQueue.setLive]
  simp only [List.length_set]
  exact getD_set_self _ _ _ _ (lt_of_lt_of_le (Nat.mod_lt _ hcap) (le_refl _))

theorem liveGet_setLive_ne (q : PhotonQueue) (i j : ℕ) (p : Photon)
    (hi : i < q.qsize) (hj : j < q.qsize) (hne : i ≠ j)
    (hsz : q.qsize ≤ q.queue.length) :
    (q.setLive i p).liveGet j = q.liveGet j := by
  rw [PhotonQueue.liveGet, PhotonQueue.setLive]
  simp only [List.length_set]
  refine getD_set_ne _ _ _ _ _ ?_
  intro he
  exact hne (slot_inj q.queue.length q.qhead (lt_of_lt_of_le hi hsz)
    (lt_of_lt_of_le hj hsz) he)

/-- Writing a live photon's own current value back leaves the pool
unchanged. -/
theorem setLive_self (q : PhotonQueue) (i : ℕ) :
    q.setLive i (q.liveGet i) = q := by
  rw [PhotonQueue.setLive, PhotonQueue.liveGet, set_getD_self]

@[simp]
theorem stepPhase_qsize (q : PhotonQueue) : q.stepPhase.qsize = q.qsize := rfl

@[simp]
theorem stepPhase_qhead (q : PhotonQueue) : q.stepPhase.qhead = q.qhead := rfl

@[simp]
theorem stepPhase_qtail (q : PhotonQueue) : q.stepPhase.qtail = q.qtail := rfl

@[simp]
theorem stepPhase_length (q : PhotonQueue) :
    q.stepPhase.queue.length = q.queue.length := by
  rw [PhotonQueue.stepPhase]
  exact length_mapIdxFrom _ _ _

/-- The movement phase updates exactly the live photons, in place. -/
theorem stepPhase_liveGet (q : PhotonQueue) (i : ℕ)
    (hh : q.qhead < q.queue.length) (hsz : q.qsize ≤ q.queue.length)
    (hi : i < q.qsize) :
    q.stepPhase.liveGet i = (q.liveGet i).update := by
  have hcap : 0 < q.queue.length := lt_of_le_of_lt (Nat.zero_le _) hh
  have hraw : (q.qhead + i) % q.queue.length < q.queue.length := Nat.mod_lt _ hcap
  rw [PhotonQueue.liveGet, PhotonQueue.liveGet, PhotonQueue.stepPhase]
  simp only [length_mapIdxFrom]
  rw [getD_mapIdxFrom, if_pos hraw, Nat.zero_add,
    logicalOf_slot q.queue.length q.qhead i hh (lt_of_lt_of_le hi hsz), if_pos hi]

/-- Advancing the head by one shifts the logical indexing by one. -/
theorem liveGet_behead (q : PhotonQueue) (x y : ℕ) (j : ℕ) :
    (PhotonQueue.mk q.queue ((q.qhead + 1) % q.queue.length) y x).liveGet j =
      q.liveGet (j + 1) := by
  rw [PhotonQueue.liveGet, PhotonQueue.liveGet]
  simp only
  rw [Nat.mod_add_mod]
  have he : q.qhead + 1 + j = q.qhead + (j + 1) := by omega
  rw [he]

/-- Characterization of the retirement loop: it pops some count `k` of
photons off the head — all of them expired — in FIFO order, leaving queue
contents, tail, and the surviving photons' logical order untouched; if
anything survives, the new head photon is not expired. -/
theorem retireAux_spec (MAX_AGE : ℤ) :
    ∀ (fuel : ℕ) (q : PhotonQueue), q.qsize ≤ fuel → q.qhead < q.queue.length →
    ∃ k, k ≤ q.qsize ∧
      (retireAux MAX_AGE fuel q).queue = q.queue ∧
      (retireAux MAX_AGE fuel q).qtail = q.qtail ∧
      (retireAux MAX_AGE fuel q).qhead = (q.qhead + k) % q.queue.length ∧
      (retireAux MAX_AGE fuel q).qsize = q.qsize - k ∧
      (∀ j, j < k → MAX_AGE ≤ (q.liveGet j).age) ∧
      (k < q.qsize → (q.liveGet k).age < MAX_AGE) := by
  intro fuel
  induction fuel with
  | zero =>
    intro q hsz hh
    refine ⟨0, Nat.zero_le _, rfl, rfl, ?_, rfl, fun j hj => absurd hj (Nat.not_lt_zero j),
      fun hk => absurd (lt_of_lt_of_le hk hsz) (Nat.lt_irrefl 0)⟩
    rw [Nat.add_zero, Nat.mod_eq_of_lt hh]
    rfl
  | succ fuel ih =>
    intro q hsz hh
    rw [retireAux]
    split_ifs with hcond
    · obtain ⟨hpos, hage⟩ := hcond
      have hcap : 0 < q.queue.length := lt_of_le_of_lt (Nat.zero_le _) hh
      obtain ⟨k1, hk1, hqueue, hqtail, hqhead, hqsize, hexp, hfresh⟩ :=
        ih (PhotonQueue.mk q.queue ((q.qhead + 1) % q.queue.length) q.qtail (q.qsize - 1))
          (by simp only; omega) (by simp only; exact Nat.mod_lt _ hcap)
      refine ⟨k1 + 1, by simp only at hk1; omega, hqueue, hqtail, ?_, ?_, ?_, ?_⟩
      · rw [hqhead]
        simp only
        rw [Nat.mod_add_mod]
        have he : q.qhead + 1 + k1 = q.qhead + (k1 + 1) := by omega
        rw [he]
      · rw [hqsize]
        simp only
        omega
      · intro j hj
        cases j with
        | zero => exact hage
        | succ j' =>
          have hj' : j' < k1 := by omega
          have := hexp j' hj'
          rwa [liveGet_behead] at this
      · intro hk
        have hk' : k1 < q.qsize - 1 := by simp only at hk1 ⊢; omega
        have := hfresh (by simp only; omega)
        rwa [liveGet_behead] at this
    · refine ⟨0, Nat.zero_le _, rfl, rfl, ?_, rfl,
        fun j hj => absurd hj (Nat.not_lt_zero j), ?_⟩
      · rw [Nat.add_zero, Nat.mod_eq_of_lt hh]
      · intro hk
        push_neg at hcond
        exact hcond hk

/-- C6 (amended): one `PhotonQueue::update` integrates each live photon's
position by its velocity and increments its age by 1 (the `stepPhase`
conjunct), then retires a prefix of `k` photons from the head — each of
them expired (age ≥ MAX_AGE after aging) — advancing the head and
decrementing the live count by one for each, so retirement occurs in
allocation (FIFO) order and the surviving photons keep their logical order
(survivor `i` is old photon `k+i`, aged); after the call the OLDEST
surviving photon has age < MAX_AGE.  (The claim's stronger "no live
projectile has age ≥ MAX_AGE" fails: a photon destroyed mid-queue by the
collision controller sits behind a younger head and is not retired — see
the counterexample.) -/
theorem c6_update (MAX_AGE : ℤ) (q : PhotonQueue)
    (hh : q.qhead < q.queue.length) (hsz : q.qsize ≤ q.queue.length) :
    (∀ i, i < q.qsize → q.stepPhase.liveGet i = (q.liveGet i).update) ∧
    ∃ k, k ≤ q.qsize ∧
      (PhotonQueue.update MAX_AGE q).qsize = q.qsize - k ∧
      (PhotonQueue.update MAX_AGE q).qhead = (q.qhead + k) % q.queue.length ∧
      (∀ j, j < k → MAX_AGE ≤ (q.liveGet j).age + 1) ∧
      (∀ i, i < q.qsize - k →
        (PhotonQueue.update MAX_AGE q).liveGet i = (q.liveGet (k + i)).update) ∧
      (0 < q.qsize - k → (q.liveGet k).age + 1 < MAX_AGE) := by
  have hstep : ∀ i, i < q.qsize → q.stepPhase.liveGet i = (q.liveGet i).update :=
    fun i hi => stepPhase_liveGet q i hh hsz hi
  refine ⟨hstep, ?_⟩
  obtain ⟨k, hk, hqueue, _hqtail, hqhead, hqsize, hexp, hfresh⟩ :=
    retireAux_spec MAX_AGE q.qsize q.stepPhase (le_of_eq (stepPhase_qsize q))
      (by rw [stepPhase_qhead, stepPhase_length]; exact hh)
  rw [stepPhase_qsize] at hk
  refine ⟨k, hk, ?_, ?_, ?_, ?_, ?_⟩
  · rw [PhotonQueue.update, hqsize, stepPhase_qsize]
  · rw [PhotonQueue.update, hqhead, stepPhase_qhead, stepPhase_length]
  · intro j hj
    have h1 := hexp j hj
    rw [hstep j (lt_of_lt_of_le hj hk)] at h1
    simpa [Photon.update] using h1
  · intro i hi
    have hki : k + i < q.qsize := by omega
    have hres : (PhotonQueue.update MAX_AGE q).liveGet i =
        q.stepPhase.liveGet (k + i) := by
      rw [PhotonQueue.liveGet, PhotonQueue.liveGet, PhotonQueue.update, hqueue, hqhead,
        stepPhase_qhead, stepPhase_length, Nat.mod_add_mod]
      have he : q.qhead + k + i = q.qhead + (k + i) := by omega
      rw [he]
    rw [hres, hstep (k + i) hki]
  · intro hpos
    have h1 := hfresh (by rw [stepPhase_qsize]; omega)
    rw [hstep k (by omega)] at h1
    simpa [Photon.update] using h1

/-- Counterexample to C6 as stated: a pool (capacity 2, MAX_AGE 5) whose
head photon has age 0 but whose second photon was destroyed (age set to
MAX_AGE = 5, as `Photon::destroy` does).  After `update` the ages are 1 and
6; head retirement stops at the young head, so the pool still holds a live
photon of age 6 ≥ MAX_AGE, contradicting "after the call no live
projectile has age ≥ MAX_AGE". -/
theorem c6_counterexample :
    (PhotonQueue.update 5 (PhotonQueue.mk
        [⟨⟨0, 0⟩, ⟨0, 0⟩, 0, 0, 1⟩, ⟨⟨0, 0⟩, ⟨0, 0⟩, 1, 5, 1⟩] 0 0 2)).qsize = 2 ∧
    (5 : ℤ) ≤ ((PhotonQueue.update 5 (PhotonQueue.mk
        [⟨⟨0, 0⟩, ⟨0, 0⟩, 0, 0, 1⟩, ⟨⟨0, 0⟩, ⟨0, 0⟩, 1, 5, 1⟩] 0 0 2)).liveGet 1).age := by
  constructor
  · rfl
  · decide

/-- Witness for C6 (amended) at a one-photon pool: the movement phase
integrates and ages the single live photon. -/
theorem c6_update_witness :
    (PhotonQueue.mk [⟨⟨0, 0⟩, ⟨0, 0⟩, 0, 0, 1⟩] 0 0 1).stepPhase.liveGet 0 =
      ((PhotonQueue.mk [⟨⟨0, 0⟩, ⟨0, 0⟩, 0, 0, 1⟩] 0 0 1).liveGet 0).update :=
  (c6_update 5 (PhotonQueue.mk [⟨⟨0, 0⟩, ⟨0, 0⟩, 0, 0, 1⟩] 0 0 1)
    (by norm_num) (by norm_num)).1 0 (by norm_num)

/-- C9: `PhotonQueue::get` returns the live photon at logical index
`0..size-1` — index 0 being the photon at the head, i.e. the oldest —
and `none` whenever the index is outside the live range (the model is a
total function, so no undefined behavior is possible). -/
theorem c9_get (q : PhotonQueue) (pos : ℕ) :
    (pos < q.qsize → q.get pos = some (q.liveGet pos)) ∧
    (q.qsize ≤ pos → q.get pos = none) ∧
    (0 < q.qsize →
      q.get 0 = some (q.queue.getD (q.qhead % q.queue.length) emptyPhoton)) := by
  refine ⟨?_, ?_, ?_⟩
  · intro h
    rw [PhotonQueue.get, if_pos h]
  · intro h
    rw [PhotonQueue.get, if_neg (not_lt.mpr h)]
  · intro h
    rw [PhotonQueue.get, if_pos h, PhotonQueue.liveGet, Nat.add_zero]

/-- Witness for C9 at a one-photon pool: index 0 is the head photon, index
1 is out of range. -/
theorem c9_get_witness :
    (PhotonQueue.mk [⟨⟨0, 0⟩, ⟨0, 0⟩, 0, 0, 1⟩] 0 0 1).get 1 = none :=
  (c9_get (PhotonQueue.mk [⟨⟨0, 0⟩, ⟨0, 0⟩, 0, 0, 1⟩] 0 0 1) 1).2.1 (by norm_num)

theorem photonStep_owned (MAX_AGE : ℤ) (pradius : ℝ) (s : Ship) (p : Photon)
    (h : p.ship = s.sid) : photonStep MAX_AGE pradius s p = (s, p) := by
  rw [photonStep, if_neg (by simp [h])]

theorem photonStep_sid (MAX_AGE : ℤ) (pradius : ℝ) (s : Ship) (p : Photon) :
    (photonStep MAX_AGE pradius s p).1.sid = s.sid := by
  rw [photonStep]
  split_ifs with h1
  · simp only []
    split_ifs <;> rfl
  · rfl

/-- Writing the same slot twice keeps only the second write. -/
theorem setLive_setLive (q : PhotonQueue) (i : ℕ) (a b : Photon) :
    (q.setLive i a).setLive i b = q.setLive i b := by
  rw [PhotonQueue.setLive, PhotonQueue.setLive, PhotonQueue.setLive]
  simp only [List.length_set]
  rw [List.set_set]

/-- Writes to two distinct live slots commute. -/
theorem setLive_comm (q : PhotonQueue) (i j : ℕ) (a b : Photon)
    (hi : i < q.qsize) (hj : j < q.qsize) (hne : i ≠ j)
    (hsz : q.qsize ≤ q.queue.length) :
    (q.setLive i a).setLive j b = (q.setLive j b).setLive i a := by
  rw [PhotonQueue.setLive, PhotonQueue.setLive, PhotonQueue.setLive, PhotonQueue.setLive]
  simp only [List.length_set]
  rw [List.set_comm]
  intro he
  exact hne (slot_inj q.queue.length q.qhead (lt_of_lt_of_le hi hsz)
    (lt_of_lt_of_le hj hsz) he)

/-- The photon loop never changes the pool's live count, head, capacity,
or the ship's identity. -/
theorem checkPhotonsAux_meta (MAX_AGE : ℤ) (pradius : ℝ) (l : List ℕ) :
    ∀ (s : Ship) (q : PhotonQueue),
      (checkPhotonsAux MAX_AGE pradius l (s, q)).2.qsize = q.qsize ∧
      (checkPhotonsAux MAX_AGE pradius l (s, q)).2.qhead = q.qhead ∧
      (checkPhotonsAux MAX_AGE pradius l (s, q)).2.queue.length = q.queue.length ∧
      (checkPhotonsAux MAX_AGE pradius l (s, q)).1.sid = s.sid := by
  induction l with
  | nil => intro s q; exact ⟨rfl, rfl, rfl, rfl⟩
  | cons ii rest ih =>
    intro s q
    cases hget : q.get ii with
    | none =>
      simp only [checkPhotonsAux, hget]
      exact ih s q
    | some p =>
      simp only [checkPhotonsAux, hget]
      obtain ⟨m1, m2, m3, m4⟩ :=
        ih (photonStep MAX_AGE pradius s p).1 (q.setLive ii (photonStep MAX_AGE pradius s p).2)
      exact ⟨by rw [m1, setLive_qsize], by rw [m2, setLive_qhead],
        by rw [m3, setLive_length], by rw [m4, photonStep_sid]⟩

/-- Along the photon loop, a photon owned by the ship is never written
with a different value: its slot is untouched. -/
theorem checkPhotonsAux_slot (MAX_AGE : ℤ) (pradius : ℝ) (l : List ℕ) :
    ∀ (s : Ship) (q : PhotonQueue) (i : ℕ),
      (∀ j ∈ l, j < q.qsize) → i < q.qsize → q.qsize ≤ q.queue.length →
      (q.liveGet i).ship = s.sid →
      (checkPhotonsAux MAX_AGE pradius l (s, q)).2.liveGet i = q.liveGet i := by
  induction l with
  | nil => intro s q i _ _ _ _; rfl
  | cons ii rest ih =>
    intro s q i hl hi hsz hown
    have hii : ii < q.qsize := hl ii (List.mem_cons_self ii rest)
    have hget : q.get ii = some (q.liveGet ii) := by
      rw [PhotonQueue.get, if_pos hii]
    simp only [checkPhotonsAux, hget]
    by_cases hcase : ii = i
    · subst hcase
      rw [photonStep_owned MAX_AGE pradius s (q.liveGet ii) hown, setLive_self]
      exact ih s q ii (fun j hj => hl j (List.mem_cons_of_mem ii hj)) hi hsz hown
    · have hq' : (q.setLive ii (photonStep MAX_AGE pradius s (q.liveGet ii)).2).liveGet i =
          q.liveGet i :=
        liveGet_setLive_ne q ii i _ hii hi hcase hsz
      have := ih (photonStep MAX_AGE pradius s (q.liveGet ii)).1
        (q.setLive ii (photonStep MAX_AGE pradius s (q.liveGet ii)).2) i
        (fun j hj => by rw [setLive_qsize]; exact hl j (List.mem_cons_of_mem ii hj))
        (by rw [setLive_qsize]; exact hi)
        (by rw [setLive_qsize, setLive_length]; exact hsz)
        (by rw [hq', photonStep_sid]; exact hown)
      rw [this, hq']

/-- Along the photon loop, the resulting ship state does not depend on the
data of a photon the ship owns: replacing it by any other photon with the
same owner gives the same ship. -/
theorem checkPhotonsAux_insensitive (MAX_AGE : ℤ) (pradius : ℝ) (l : List ℕ) :
    ∀ (s : Ship) (q : PhotonQueue) (i : ℕ) (p2 : Photon),
      (∀ j ∈ l, j < q.qsize) → i < q.qsize → q.qsize ≤ q.queue.length →
      (q.liveGet i).ship = s.sid → p2.ship = s.sid →
      (checkPhotonsAux MAX_AGE pradius l (s, q)).1 =
        (checkPhotonsAux MAX_AGE pradius l (s, q.setLive i p2)).1 := by
  induction l with
  | nil => intro s q i p2 _ _ _ _ _; rfl
  | cons ii rest ih =>
    intro s q i p2 hl hi hsz hown hp2
    have hii : ii < q.qsize := hl ii (List.mem_cons_self ii rest)
    have hget : q.get ii = some (q.liveGet ii) := by
      rw [PhotonQueue.get, if_pos hii]
    have hget2 : (q.setLive i p2).get ii = some ((q.setLive i p2).liveGet ii) := by
      rw [PhotonQueue.get, if_pos (by rw [setLive_qsize]; exact hii)]
    simp only [checkPhotonsAux, hget, hget2]
    by_cases hcase : ii = i
    · subst hcase
      have hlg2 : (q.setLive ii p2).liveGet ii = p2 := liveGet_setLive_self q ii p2 hii hsz
      rw [hlg2, photonStep_owned MAX_AGE pradius s (q.liveGet ii) hown,
        photonStep_owned MAX_AGE pradius s p2 hp2, setLive_self, setLive_setLive]
      exact ih s q ii p2 (fun j hj => hl j (List.mem_cons_of_mem ii hj)) hii hsz hown hp2
    · have hlg2 : (q.setLive i p2).liveGet ii = q.liveGet ii :=
        liveGet_setLive_ne q i ii p2 hi hii (fun he => hcase he.symm) hsz
      rw [hlg2]
      rw [setLive_comm q i ii p2 (photonStep MAX_AGE pradius s (q.liveGet ii)).2 hi hii
        (fun he => hcase he.symm) hsz]
      have := ih (photonStep MAX_AGE pradius s (q.liveGet ii)).1
        (q.setLive ii (photonStep MAX_AGE pradius s (q.liveGet ii)).2) i p2
        (fun j hj => by rw [setLive_qsize]; exact hl j (List.mem_cons_of_mem ii hj))
        (by rw [setLive_qsize]; exact hi)
        (by rw [setLive_qsize, setLive_length]; exact hsz)
        (by rw [liveGet_setLive_ne q ii i _ hii hi hcase hsz, photonStep_sid]; exact hown)
        (by rw [photonStep_sid]; exact hp2)
      exact this

/-- C7: in `collisions::checkForCollision(Ship, PhotonQueue)` a photon
whose owner id equals the ship's SID never triggers a collision response:
processing it is the identity on ship and photon (first conjunct), its
slot in the pool is untouched by the whole call — in particular it is not
destroyed (second conjunct) — and the ship's resulting state does not
depend on that photon's position or velocity at all: replacing it by an
arbitrary photon with the same owner yields the same ship (third
conjunct). -/
theorem c7_self_immunity (MAX_AGE : ℤ) (pradius : ℝ) (s : Ship) (q : PhotonQueue)
    (i : ℕ) (p2 : Photon)
    (hi : i < q.qsize) (hsz : q.qsize ≤ q.queue.length)
    (hown : (q.liveGet i).ship = s.sid) (hp2 : p2.ship = s.sid) :
    photonStep MAX_AGE pradius s (q.liveGet i) = (s, q.liveGet i) ∧
    (checkForCollisionPhotons MAX_AGE pradius s q).2.liveGet i = q.liveGet i ∧
    (checkForCollisionPhotons MAX_AGE pradius s q).1 =
      (checkForCollisionPhotons MAX_AGE pradius s (q.setLive i p2)).1 := by
  refine ⟨photonStep_owned MAX_AGE pradius s (q.liveGet i) hown, ?_, ?_⟩
  · exact checkPhotonsAux_slot MAX_AGE pradius (List.range q.qsize) s q i
      (fun j hj => List.mem_range.mp hj) hi hsz hown
  · exact checkPhotonsAux_insensitive MAX_AGE pradius (List.range q.qsize) s q i p2
      (fun j hj => List.mem_range.mp hj) hi hsz hown hp2

/-- Witness for C7: a ship of SID 7 and a pool holding only its own photon;
the photon step is the identity. -/
theorem c7_self_immunity_witness :
    photonStep 5 10 ⟨⟨0, 0⟩, ⟨0, 0⟩, 0, 0, 40, 1, 7, 0⟩
        ((PhotonQueue.mk [⟨⟨0, 0⟩, ⟨0, 0⟩, 7, 0, 1⟩] 0 0 1).liveGet 0) =
      (⟨⟨0, 0⟩, ⟨0, 0⟩, 0, 0, 40, 1, 7, 0⟩,
        (PhotonQueue.mk [⟨⟨0, 0⟩, ⟨0, 0⟩, 7, 0, 1⟩] 0 0 1).liveGet 0) :=
  (c7_self_immunity 5 10 ⟨⟨0, 0⟩, ⟨0, 0⟩, 0, 0, 40, 1, 7, 0⟩
    (PhotonQueue.mk [⟨⟨0, 0⟩, ⟨0, 0⟩, 7, 0, 1⟩] 0 0 1) 0 ⟨⟨3, 4⟩, ⟨5, 6⟩, 7, 2, 1⟩
    (by norm_num) (by norm_num) (by decide) (by norm_num)).1

end GameLab
